import Mathlib

/-!
Verification of the MTB compliance metric and reference-response engine.

Numeric convention: Python/numpy floating-point values are modelled as exact
rationals (ℚ); decimal literals in the source become the same decimal literals
in ℚ.  The few places where numpy arithmetic can produce a non-finite value
(±inf / NaN from a division by zero or an explicit `np.inf`) are modelled with
the extended-value type `XQ`.  A Python exception (numpy reduction over an
empty selection, `sys.exit`) is modelled by an explicit error constructor
(`CRes.exn`, `Option.none`, `Except.error`), distinct from the NaN
sentinel `CRes.nan` that the cursor functions return deliberately.
-/

/-- Result of one cursor metric call (`src/plotter/cursor_functions.py`):
`exn` models a raised Python exception, `nan` models the `np.nan` sentinel
returned when the guard `len(...columns) >= 2/3` or `len(t) > 0` fails,
`val a` models a normally returned value. -/
inductive CRes (α : Type) where
  | exn : CRes α
  | nan : CRes α
  | val : α → CRes α
deriving DecidableEq, Repr

/-- Extended rational modelling one numpy float64 value that may be
non-finite: `fin q` a finite value, `pinf`/`ninf` the infinities, `nanv` NaN. -/
inductive XQ where
  | fin : ℚ → XQ
  | pinf : XQ
  | ninf : XQ
  | nanv : XQ
deriving DecidableEq, Repr

/-- numpy float64 division of two finite values: division by zero yields a
signed infinity (or NaN for 0/0) instead of raising. -/
def xdiv (a b : ℚ) : XQ :=
  if b ≠ 0 then .fin (a / b)
  else if a > 0 then .pinf
  else if a < 0 then .ninf
  else .nanv

/-- numpy float64 multiplication of an extended value by a finite value. -/
def xmulQ (x : XQ) (c : ℚ) : XQ :=
  match x with
  | .fin q => .fin (q * c)
  | .pinf => if c > 0 then .pinf else if c < 0 then .ninf else .nanv
  | .ninf => if c > 0 then .ninf else if c < 0 then .pinf else .nanv
  | .nanv => .nanv

/-- numpy float64 division of an extended value by a finite value
(`inf / 0.0 = inf` with numpy scalars, no exception). -/
def xdivQ (x : XQ) (c : ℚ) : XQ :=
  match x with
  | .fin q => xdiv q c
  | .pinf => if c < 0 then .ninf else .pinf
  | .ninf => if c < 0 then .pinf else .ninf
  | .nanv => .nanv

/-- `np.clip` on an extended value: infinities clip to the bounds, NaN stays NaN. -/
def xclip (x : XQ) (lo hi : ℚ) : XQ :=
  match x with
  | .fin q => .fin (min (max q lo) hi)
  | .pinf => .fin hi
  | .ninf => .fin lo
  | .nanv => .nanv

/-- Subtraction of an extended value from a finite value. -/
def xsubL (a : ℚ) (x : XQ) : XQ :=
  match x with
  | .fin q => .fin (a - q)
  | .pinf => .ninf
  | .ninf => .pinf
  | .nanv => .nanv

/-- A cursor signal table (`cursorSignalsDf`): the list of its columns, first
column the time axis `t`, the following columns the selected signals.  In the
running system all columns of the pandas DataFrame share one length. -/
abbrev CursorDf := List (List ℚ)

/-- Membership test of one time sample in a cursor time interval, exactly as
the repeated source line
`mask = (t >= iv[0]) & (t <= iv[1]) if len(iv) == 2 else (t >= iv[0])`
guarded by `if len(time_interval) > 0`: a two-element interval is a closed
range, a shorter (or longer) non-empty one only bounds from below, an empty
one selects everything. -/
def ivKeep (iv : List ℚ) (x : ℚ) : Bool :=
  match iv with
  | [] => true
  | [a, b] => a ≤ x ∧ x ≤ b
  | a :: _ => a ≤ x

/-- Interval-restricted window of a signal against the time column: the rows
`(t, y)` whose time lies in the interval (the `t[mask], y[mask]` pair of the
source, expressed on zipped rows). -/
def winF {α : Type} (t : List ℚ) (y : List α) (iv : List ℚ) : List (ℚ × α) :=
  (t.zip y).filter (fun p => ivKeep iv p.1)

/-- Minimum of a sample list (`ndarray.min()`); meaningful on non-empty lists,
callers guard emptiness. -/
def listMin : List ℚ → ℚ
  | [] => 0
  | a :: l => l.foldl min a

/-- Maximum of a sample list (`ndarray.max()`); meaningful on non-empty lists,
callers guard emptiness. -/
def listMax : List ℚ → ℚ
  | [] => 0
  | a :: l => l.foldl max a

/-- Arithmetic mean of a sample list (`ndarray.mean()`). -/
def listMean (l : List ℚ) : ℚ := l.sum / l.length

/-- cursorStart: first sample of the interval window, NaN sentinel when the
table has fewer than two columns or the window is empty. -/
def cursorStart : CursorDf → List ℚ → CRes (ℚ × ℚ)
  | t :: y :: _, iv =>
    match winF t y iv with
    | [] => .nan
    | p :: _ => .val p
  | _, _ => .nan

/-- cursorEnd: last sample of the interval window. -/
def cursorEnd : CursorDf → List ℚ → CRes (ℚ × ℚ)
  | t :: y :: _, iv =>
    match winF t y iv with
    | [] => .nan
    | p :: ps => .val ((p :: ps).getLastD (0, 0))
  | _, _ => .nan

/-- cursorDelta: last minus first y value of the interval window. -/
def cursorDelta : CursorDf → List ℚ → CRes ℚ
  | t :: y :: _, iv =>
    match winF t y iv with
    | [] => .nan
    | p :: ps => .val (((p :: ps).getLastD (0, 0)).2 - p.2)
  | _, _ => .nan

/-- cursorMin: minimum y of the window and the time of its first occurrence
(`np.argmin` returns the first minimising index). -/
def cursorMin : CursorDf → List ℚ → CRes (ℚ × ℚ)
  | t :: y :: _, iv =>
    match winF t y iv with
    | [] => .nan
    | p :: ps =>
      let w := p :: ps
      let ymin := listMin (w.map (·.2))
      .val (ymin, ((w.find? (fun q => q.2 = ymin)).getD (0, 0)).1)
  | _, _ => .nan

/-- cursorMax: maximum y of the window and the time of its first occurrence. -/
def cursorMax : CursorDf → List ℚ → CRes (ℚ × ℚ)
  | t :: y :: _, iv =>
    match winF t y iv with
    | [] => .nan
    | p :: ps =>
      let w := p :: ps
      let ymax := listMax (w.map (·.2))
      .val (ymax, ((w.find? (fun q => q.2 = ymax)).getD (0, 0)).1)
  | _, _ => .nan

/-- cursorMean: arithmetic mean of the window's y values. -/
def cursorMean : CursorDf → List ℚ → CRes ℚ
  | t :: y :: _, iv =>
    match winF t y iv with
    | [] => .nan
    | p :: ps => .val (listMean ((p :: ps).map (·.2)))
  | _, _ => .nan

/-- Second-order central differences of `np.gradient` at the interior points of
a non-uniformly sampled `(t, y)` sequence. -/
def interiorGrads : List (ℚ × ℚ) → List ℚ
  | a :: b :: c :: rest =>
    (let dx1 := b.1 - a.1
     let dx2 := c.1 - b.1
     (-dx2 / (dx1 * (dx1 + dx2))) * a.2 + ((dx2 - dx1) / (dx1 * dx2)) * b.2
       + (dx1 / (dx2 * (dx1 + dx2))) * c.2) :: interiorGrads (b :: c :: rest)
  | _ => []

/-- `np.gradient(y, t)` over the rows of a window: one-sided differences at the
two ends, central differences inside; fewer than two samples raise a
ValueError, modelled as `none`.  (Coincident time samples would give numpy
infinities; ℚ division-by-zero yields 0 there — no claim touches that case.) -/
def npGradient (w : List (ℚ × ℚ)) : Option (List ℚ) :=
  match w with
  | a :: b :: _ =>
    let l1 := w.getLastD (0, 0)
    let l2 := w.dropLast.getLastD (0, 0)
    some (((b.2 - a.2) / (b.1 - a.1)) :: (interiorGrads w ++ [(l1.2 - l2.2) / (l1.1 - l2.1)]))
  | _ => none

/-- cursorGradMin: minimum of the window's numerical gradient, scaled by 60. -/
def cursorGradMin : CursorDf → List ℚ → CRes ℚ
  | t :: y :: _, iv =>
    match winF t y iv with
    | [] => .nan
    | p :: ps =>
      match npGradient (p :: ps) with
      | none => .exn
      | some g => .val (listMin g * 60)
  | _, _ => .nan

/-- cursorGradMean: mean of the window's numerical gradient, scaled by 60. -/
def cursorGradMean : CursorDf → List ℚ → CRes ℚ
  | t :: y :: _, iv =>
    match winF t y iv with
    | [] => .nan
    | p :: ps =>
      match npGradient (p :: ps) with
      | none => .exn
      | some g => .val (listMean g * 60)
  | _, _ => .nan

/-- cursorGradMax: maximum of the window's numerical gradient, scaled by 60. -/
def cursorGradMax : CursorDf → List ℚ → CRes ℚ
  | t :: y :: _, iv =>
    match winF t y iv with
    | [] => .nan
    | p :: ps =>
      match npGradient (p :: ps) with
      | none => .exn
      | some g => .val (listMax g * 60)
  | _, _ => .nan

/-- cursorResponseDelay: span of the times whose y value has not yet left the
10% band of the total step (`y <= y0 + 0.1*dy` for a rising step, mirrored
otherwise); the zero-step case `dy = 0` falls into the falling branch. -/
def cursorResponseDelay : CursorDf → List ℚ → CRes ℚ
  | t :: y :: _, iv =>
    match winF t y iv with
    | [] => .nan
    | p :: ps =>
      let w := p :: ps
      let y0 := p.2
      let y1 := (w.getLastD (0, 0)).2
      let dy := y1 - y0
      let sel := if dy > 0 then w.filter (fun q => q.2 ≤ y0 + 0.1 * dy)
                 else w.filter (fun q => y0 + 0.1 * dy ≤ q.2)
      match sel.map (·.1) with
      | [] => .exn
      | s :: ss => .val (listMax (s :: ss) - listMin (s :: ss))
  | _, _ => .nan

/-- cursorRiseFallTime: span of the times whose y value lies inside the
10%–90% band of the total step; an empty band selection makes the numpy
reductions `t.max()`/`t.min()` raise (ValueError), modelled as `exn`. -/
def cursorRiseFallTime : CursorDf → List ℚ → CRes (ℚ × ℚ)
  | t :: y :: _, iv =>
    match winF t y iv with
    | [] => .nan
    | p :: ps =>
      let w := p :: ps
      let y0 := p.2
      let y1 := (w.getLastD (0, 0)).2
      let dy := y1 - y0
      let sel := if dy > 0 then w.filter (fun q => y0 + 0.1 * dy ≤ q.2 ∧ q.2 ≤ y0 + 0.9 * dy)
                 else w.filter (fun q => q.2 ≤ y0 + 0.1 * dy ∧ y0 + 0.9 * dy ≤ q.2)
      match sel.map (·.1) with
      | [] => .exn
      | s :: ss => .val (dy, listMax (s :: ss) - listMin (s :: ss))
  | _, _ => .nan

/-- cursorSettlingTime: time from the window start to the last sample outside
the `tol`% band around the mean of the last (up to) ten samples; 0 when the
signal never leaves the band. -/
def cursorSettlingTime (df : CursorDf) (iv : List ℚ) (tol : ℚ) : CRes ℚ :=
  match df with
  | t :: y :: _ =>
    match winF t y iv with
    | [] => .nan
    | p :: ps =>
      let w := p :: ps
      let t0 := p.1
      let ys := w.map (·.2)
      let y1 := listMean (ys.drop (ys.length - 10))
      let dy := |y1 - p.2|
      let out := w.filter (fun q => dy * tol / 100 ≤ |q.2 - y1|)
      match out.map (·.1) with
      | [] => .val 0
      | s :: ss => .val (listMax (s :: ss) - t0)
  | _ => .nan

/-- cursorPeakOvershoot (overshoot-ratio component): peak excursion beyond the
final value as a fraction of the step size; 0 when there is no overshoot.  The
paired damping estimate `zeta = sqrt(A^2/(1+A^2))`, `A = log(ratio)/pi` is a
pointwise transcendental function of this ratio and is not modelled in ℚ. -/
def cursorPeakOvershoot : CursorDf → List ℚ → CRes XQ
  | t :: y :: _, iv =>
    match winF t y iv with
    | [] => .nan
    | p :: ps =>
      let w := p :: ps
      let y0 := p.2
      let y1 := (w.getLastD (0, 0)).2
      let dy := |y1 - y0|
      let ys := w.map (·.2)
      if y1 > y0 then
        (if listMax ys > y1 then .val (xdiv (listMax ys - y1) dy) else .val (.fin 0))
      else
        (if listMin ys < y1 then .val (xdiv |listMin ys - y1| dy) else .val (.fin 0))
  | _, _ => .nan

/-- cursorFSMDroop: inverse-solved FSM droop from the power and frequency
columns; `db` embeds `settingsDict['FSM deadband']`.  Zero ΔP yields the
explicit `np.inf`. -/
def cursorFSMDroop (df : CursorDf) (iv : List ℚ) (db : ℚ) : CRes XQ :=
  match df with
  | t :: p :: f :: _ =>
    match winF t (p.zip f) iv with
    | [] => .nan
    | r :: rs =>
      let w := r :: rs
      let last := w.getLastD (0, 0, 0)
      let start := (if |50 - r.2.2| < 0.01 then (last.2.2, last.2.1, r.2.1)
                    else (r.2.2, r.2.1, last.2.1) : ℚ × ℚ × ℚ)
      let fnew := start.1
      let Pnew := start.2.1
      let Pref := start.2.2
      if Pnew = Pref then .val .pinf
      else if fnew - 50 < 0 then .val (.fin (-100 * (fnew - 50 + db) / (50 * (Pnew - Pref))))
      else .val (.fin (-100 * (fnew - 50 - db) / (50 * (Pnew - Pref))))
  | _ => .nan

/-- cursoLFSMDroop (name as in the source): inverse-solved LFSM droop against
the area corner frequency; `areaDK1` embeds `settingsDict['Area'] == 'DK1'`. -/
def cursoLFSMDroop (df : CursorDf) (iv : List ℚ) (areaDK1 : Bool) : CRes XQ :=
  match df with
  | t :: p :: f :: _ =>
    match winF t (p.zip f) iv with
    | [] => .nan
    | r :: rs =>
      let w := r :: rs
      let DK : ℤ := if areaDK1 then 1 else 2
      let last := w.getLastD (0, 0, 0)
      let start := (if |50 - r.2.2| > 0.01 then (r.2.2, r.2.1, last.2.1)
                    else (last.2.2, last.2.1, r.2.1) : ℚ × ℚ × ℚ)
      let fnew := start.1
      let Pnew := start.2.1
      let Pref := start.2.2
      let f1 : ℚ := if DK = 1 then (if fnew > 50 then 50.2 else 49.8)
                    else (if fnew > 50 then 50.5 else 49.5)
      if Pnew = Pref then .val .pinf
      else .val (.fin (-100 * (fnew - f1) / (50 * (Pnew - Pref))))
  | _ => .nan

/-- cursorQUDroop: realized Q(U) droop `-100*du/Uref*Qnom/dq` over the window;
`Uref` embeds `caseDf['Initial Settings']['U0']`, `Qnom = 0.33`. -/
def cursorQUDroop (df : CursorDf) (iv : List ℚ) (Uref : ℚ) : CRes XQ :=
  match df with
  | t :: q :: u :: _ =>
    match winF t (q.zip u) iv with
    | [] => .nan
    | r :: rs =>
      let w := r :: rs
      let last := w.getLastD (0, 0, 0)
      let dq := last.2.1 - r.2.1
      let du := last.2.2 - r.2.2
      .val (xdivQ (xmulQ (xdiv (-100 * du) Uref) 0.33) dq)
  | _ => .nan

/-- cursorQUSSTol: required ΔQ from the Q(U) droop (clipped to ±Qnom) and the
steady-state tolerance of the observed ΔQ against it; `quDroop0 = none` embeds
the `'Default'` initial droop resolved to `defaultQUdroop`. -/
def cursorQUSSTol (df : CursorDf) (iv : List ℚ) (defaultQUdroop : ℚ)
    (quDroop0 : Option ℚ) (Uref : ℚ) : CRes (XQ × XQ) :=
  match df with
  | t :: q :: u :: _ =>
    match winF t (q.zip u) iv with
    | [] => .nan
    | r :: rs =>
      let w := r :: rs
      let s := quDroop0.getD defaultQUdroop
      let Qnom : ℚ := 0.33
      let last := w.getLastD (0, 0, 0)
      let dq := last.2.1 - r.2.1
      let du := last.2.2 - r.2.2
      let dqReq := xclip (xdivQ (xmulQ (xdiv (-100 * du) Uref) Qnom) s) (-Qnom) Qnom
      .val (dqReq, xdivQ (xmulQ (xsubL dq dqReq) 100) Qnom)
  | _ => .nan

/-- cursorDeltaFFC: observed Iq jump and the fast-fault-current law's required
jump; `areaDK1` embeds `settingsDict['Area'] == 'DK1'`, `Un` the nominal
voltage whose `< 110` test selects the DSO limits. -/
def cursorDeltaFFC (df : CursorDf) (iv : List ℚ) (areaDK1 : Bool) (Un : ℚ) :
    CRes (ℚ × ℚ) :=
  match df with
  | t :: i :: u :: _ =>
    match winF t (i.zip u) iv with
    | [] => .nan
    | r :: rs =>
      let w := r :: rs
      let DK : ℤ := if areaDK1 then 1 else 2
      let DSO : Bool := Un < 110
      let lim : ℚ := if DK = 2 ∨ DSO = true then 0.9 else 0.85
      let m : ℚ := if DK = 2 ∨ DSO = true then 1 / 0.4 else 1 / 0.35
      let c : ℚ := if DK = 2 ∨ DSO = true then 2.25 else 2.42857
      let last := w.getLastD (0, 0, 0)
      let upos := last.2.2
      let iq0 := r.2.1
      let diq := last.2.1 - iq0
      let dFFC : ℚ := if upos ≥ lim then 0
                      else if upos < lim ∧ upos > 0.5 then -m * upos + c
                      else 1.0
      .val (diq, dFFC)
  | _ => .nan

/-- guidePramp (`src/plotter/guide_functions.py`): ramp-limited active-power
reference; rate capped at `min(0.2 pu/min, 60/Pn MW/min)` converted to pu/s,
held at `Pref` until `Tstep`, clamped at `Pstep` once reached. -/
def guidePramp (Pref Pn Tstep Pstep t : ℚ) : ℚ :=
  let m0 := min (0.2 : ℚ) (60 / Pn)
  if Pstep > Pref then
    let m := m0 / 60
    let Pramp := if t ≤ Tstep then Pref else m * (t - Tstep) + Pref
    if Pramp ≥ Pstep then Pstep else Pramp
  else
    let m := -m0 / 60
    let Pramp := if t ≤ Tstep then Pref else m * (t - Tstep) + Pref
    if Pramp ≤ Pstep then Pstep else Pramp

/-- guideFSM: FSM droop law with deadband `db` and droop `s`; the frequency is
first clamped to the area's FSM range and the result clamped to ±10% of the
input reference.  An invalid area prints and returns 0 in the source. -/
def guideFSM (Pref f : ℚ) (DK : ℤ) (s db : ℚ) : ℚ :=
  if DK = 1 ∨ DK = 2 then
    let fRU : ℚ := if DK = 1 then 49.8 else 49.5
    let fRO : ℚ := if DK = 1 then 50.2 else 50.5
    let f1 := if f < fRU then fRU else f
    let f2 := if f1 > fRO then fRO else f1
    let Pnew0 := if f2 < 50 then
                   (if f2 < 50 - db then Pref - 100 / s * (f2 - 50 + db) / 50 * 1 else Pref)
                 else
                   (if f2 > 50 + db then Pref - 100 / s * (f2 - 50 - db) / 50 * 1 else Pref)
    let Pnew1 := if Pnew0 > Pref + 0.1 * 1 then Pref + 0.1 * 1 else Pnew0
    if Pnew1 < Pref - 0.1 * 1 then Pref - 0.1 * 1 else Pnew1
  else 0

/-- idealFSM (`src/plotter/ideal_functions.py`): textually identical to
guideFSM in the source; embedded separately to keep both symbols. -/
def idealFSM (Pref f : ℚ) (DK : ℤ) (s db : ℚ) : ℚ :=
  if DK = 1 ∨ DK = 2 then
    let fRU : ℚ := if DK = 1 then 49.8 else 49.5
    let fRO : ℚ := if DK = 1 then 50.2 else 50.5
    let f1 := if f < fRU then fRU else f
    let f2 := if f1 > fRO then fRO else f1
    let Pnew0 := if f2 < 50 then
                   (if f2 < 50 - db then Pref - 100 / s * (f2 - 50 + db) / 50 * 1 else Pref)
                 else
                   (if f2 > 50 + db then Pref - 100 / s * (f2 - 50 - db) / 50 * 1 else Pref)
    let Pnew1 := if Pnew0 > Pref + 0.1 * 1 then Pref + 0.1 * 1 else Pnew0
    if Pnew1 < Pref - 0.1 * 1 then Pref - 0.1 * 1 else Pnew1
  else 0

/-- guideLFSM: LFSM droop law for area DK1/DK2 with optional FSM pre-step;
output limited to [0, 1] pu.  An invalid area prints and returns 0. -/
def guideLFSM (Pref f : ℚ) (DK : ℤ) (FSM : Bool) (s_fsm db : ℚ) : ℚ :=
  if DK = 1 ∨ DK = 2 then
    let f1 : ℚ := if DK = 1 then (if f > 50 then 50.2 else 49.8)
                  else (if f > 50 then 50.5 else 49.5)
    let s : ℚ := if DK = 1 then 5 else 4
    let Pref1 := if FSM = true then guideFSM Pref f DK s_fsm db else Pref
    let Pnew := if (f > 50 ∧ f > f1) ∨ (f < 50 ∧ f < f1)
                then Pref1 - 100 / s * (f - f1) / 50 * 1 else Pref1
    if Pnew ≥ 1 then 1 else if Pnew ≤ 0 then 0 else Pnew
  else 0

/-- Hysteresis flag update of guideLFSMRamp for one sample: above the upper
threshold switch to (LOWER, UPPER) = (False, True), below the lower threshold
to (True, False), otherwise keep the current flags. -/
def updFlags (lower upper : Bool) (fk : ℚ) : Bool × Bool :=
  if |fk - 50| > 0.040 then (false, true)
  else if |fk - 50| < 0.020 then (true, false)
  else (lower, upper)

/-- One ramping-regime update of guideLFSMRamp: move the previous output
toward the instantaneous reference `p0k` at rate `m` per second, without
crossing it; hold when already within the power threshold. -/
def rampStep (m Ts p0k prev : ℚ) : ℚ :=
  if |p0k - prev| > 0.0001 then
    if p0k - prev > 0 then
      (if m * Ts + prev > p0k then p0k else m * Ts + prev)
    else
      (if -m * Ts + prev < p0k then p0k else -m * Ts + prev)
  else prev

/-- Per-sample loop of guideLFSMRamp over the triples
`(P0[k], f[k], fTdLpf[k-1])`, carrying the hysteresis flags, the droop anchor
`Pref` and the previous output; the branch reached with both flags clear is
the source's `sys.exit(1)` ("trapped in the hysteresis loop"), modelled as
`Except.error`. -/
def lfsmRampGo (m Ts : ℚ) (DK : ℤ) (FSM : Bool) (s_fsm db : ℚ) :
    Bool → Bool → ℚ → ℚ → List (ℚ × ℚ × ℚ) → Except Unit (List ℚ)
  | _, _, _, _, [] => .ok []
  | lower, upper, pref, prev, (p0k, fk, ftdk) :: rest =>
    let fl := updFlags lower upper fk
    if fl.1 then
      let pk := rampStep m Ts p0k prev
      (lfsmRampGo m Ts DK FSM s_fsm db fl.1 fl.2 pk pk rest).map (fun tail => pk :: tail)
    else if fl.2 then
      let pk := guideLFSM pref ftdk DK FSM s_fsm db
      (lfsmRampGo m Ts DK FSM s_fsm db fl.1 fl.2 pref pk rest).map (fun tail => pk :: tail)
    else .error ()

/-- guideLFSMRamp: hysteresis-switched, rate-limited LFSM response computed
sample by sample (`for k in range(1, len(P))`), starting in the ramping regime
with `Pref = P0[0]` and `P[0]` kept from the seeded output column. -/
def guideLFSMRamp (P0 : List ℚ) (Pn Ts : ℚ) (f fTdLpf P : List ℚ) (DK : ℤ)
    (FSM : Bool) (s_fsm db : ℚ) : Except Unit (List ℚ) :=
  let m := min (0.2 : ℚ) (60 / Pn) / 60
  match P with
  | [] => .ok []
  | p0 :: ptail =>
    let triples := (((P0.drop 1).zip ((f.drop 1).zip fTdLpf)).take ptail.length)
    (lfsmRampGo m Ts DK FSM s_fsm db true false (P0.headD 0) p0 triples).map
      (fun rest => p0 :: rest)

/-- guideFFC: fast-fault-current law.  Above the area FRT limit the pre-fault
current is returned; in the sloped band the area's linear law plus `Iq0`; at
or below 0.5 pu the full contribution `1.0 + Iq0`.  An invalid area calls
`sys.exit(1)`, modelled as `none`. -/
def guideFFC (Upos Iq0 : ℚ) (DK : ℤ) (DSO : Bool) : Option ℚ :=
  let body : ℚ → ℚ := fun vposFrtLimit =>
    if Upos ≥ vposFrtLimit then Iq0
    else if Upos < vposFrtLimit ∧ Upos > 0.5 then
      (if DK = 2 ∨ DSO = true then -1 / 0.4 * Upos + 2.25 + Iq0
       else -1 / 0.35 * Upos + 2.42857 + Iq0)
    else 1.0 + Iq0
  if DK = 1 ∧ DSO = false then some (body 0.85)
  else if DK = 2 ∨ DSO = true then some (body 0.9)
  else none

/-- idealFFC: textually identical to guideFFC in the source; embedded
separately to keep both symbols. -/
def idealFFC (Upos Iq0 : ℚ) (DK : ℤ) (DSO : Bool) : Option ℚ :=
  let body : ℚ → ℚ := fun vposFrtLimit =>
    if Upos ≥ vposFrtLimit then Iq0
    else if Upos < vposFrtLimit ∧ Upos > 0.5 then
      (if DK = 2 ∨ DSO = true then -1 / 0.4 * Upos + 2.25 + Iq0
       else -1 / 0.35 * Upos + 2.42857 + Iq0)
    else 1.0 + Iq0
  if DK = 1 ∧ DSO = false then some (body 0.85)
  else if DK = 2 ∨ DSO = true then some (body 0.9)
  else none

/-- Result-file format family (`src/plotter/Result.py`). -/
inductive ResultType where
  | RMS : ResultType
  | EMT_INF : ResultType
  | EMT_PSOUT : ResultType
  | EMT_CSV : ResultType
  | EMT_ZIP : ResultType
deriving DecidableEq, Repr

/-- Split a character list at every occurrence of a separator, keeping empty
segments, as Python `str.split(sep)` does for a one-character separator. -/
def splitChar (p : Char → Bool) : List Char → List (List Char)
  | [] => [[]]
  | c :: cs =>
    match splitChar p cs with
    | [] => [[]]
    | h :: t => if p c then [] :: h :: t else (c :: h) :: t

/-- Python `s.split(sep)` for a one-character separator, over strings. -/
def strSplit (s : String) (sep : Char) : List String :=
  (splitChar (· = sep) s.data).map String.mk

/-- Leading characters of a string up to the first space: `s.split(" ")[0]`. -/
def spaceTok (s : String) : String := String.mk (s.data.takeWhile (· ≠ ' '))

/-- Python `s.replace(c, "")` for a one-character pattern. -/
def strDrop (s : String) (c : Char) : String := String.mk (s.data.filter (· ≠ c))

/-- Python `while s.startswith('#'): s = s[1:]`. -/
def stripHashes (s : String) : String := String.mk (s.data.dropWhile (· = '#'))

/-- Display-name template of getColNames
(`src/plotter/process_results.py`): shorthand, colon, first space-delimited
token of the (already format-resolved) signal name, with every `$` removed
from the whole string. -/
def dispNameOf (raw sh : String) : String := strDrop (sh ++ ":" ++ spaceTok raw) '$'

/-- getColNames: maps a raw configured signal name to the concrete column key
of the result format (`String ⊕ String × String`: a plain column name or the
RMS two-level key) together with the display name.  The display name is built
from the name after the per-format rewriting of `rawSigName`. -/
def getColNames (rawSigName : String) (typ : ResultType) (shorthand : String) :
    (String ⊕ String × String) × String :=
  match typ with
  | .RMS =>
    let raw := stripHashes rawSigName
    let parts := strSplit raw '\\'
    let col : String ⊕ String × String :=
      if parts.length = 2 then .inr ("##" ++ parts.headD "", parts.getLastD "")
      else .inl raw
    (col, dispNameOf raw shorthand)
  | .EMT_INF | .EMT_CSV | .EMT_ZIP =>
    let raw := (strSplit rawSigName '\\').getLastD ""
    (.inl raw, dispNameOf raw shorthand)
  | .EMT_PSOUT => (.inl rawSigName, dispNameOf rawSigName shorthand)

/-- Display name exactly as the examined claim words it: shorthand, colon,
first whitespace-delimited token of the ORIGINAL raw signal name, with the
marker characters `#` and `$` stripped. -/
def claimDisplayName (raw sh : String) : String :=
  strDrop (strDrop (sh ++ ":" ++ spaceTok raw) '$') '#'

/-- Per-format name rewriting that the source applies to `rawSigName` before
building the display name: RMS strips the leading `#` markers, the EMT text
and compressed formats keep only the last backslash-separated segment, the
EMT binary format keeps the name unchanged. -/
def resolvedForDisplay (typ : ResultType) (raw : String) : String :=
  match typ with
  | .RMS => stripHashes raw
  | .EMT_INF | .EMT_CSV | .EMT_ZIP => (strSplit raw '\\').getLastD ""
  | .EMT_PSOUT => raw

/-- Python `\w` over ASCII: letters, digits and underscore (the file names the
classifier sees are ASCII). -/
def isWordChar (c : Char) : Bool := c.isAlphanum || c = '_'

/-- Recognized result-file extensions of the classifier's pattern
`^(\w+?)_([0-9]+).(inf|csv|psout|zip|gz|bz2|xz)$`. -/
def extList : List String := ["inf", "csv", "psout", "zip", "gz", "bz2", "xz"]

/-- Numeric value of a digit group, as Python `int` (so `"07"` is 7). -/
def digitsToNat (l : List Char) : Nat := l.foldl (fun acc c => 10 * acc + (c.toNat - 48)) 0

/-- Backtracking for the greedy `([0-9]+).(ext)$` tail of the classifier's
pattern: try the longest digit group first (`k` digits available), then one
arbitrary non-newline character for the unescaped dot, then a recognized
extension filling the rest of the name. -/
def extTry : Nat → List Char → Option (Nat × String)
  | 0, _ => none
  | k + 1, rest =>
    match rest.drop (k + 1) with
    | c :: e =>
      if c ≠ '\n' ∧ extList.contains (String.mk e) then
        some (digitsToNat (rest.take (k + 1)), String.mk e)
      else extTry k rest
    | [] => extTry k rest

/-- Match of the classifier pattern's tail after a candidate `_`. -/
def tailMatch (rest : List Char) : Option (Nat × String) :=
  extTry (rest.takeWhile Char.isDigit).length rest

/-- Lazy `\w+?` search: at each position first try to read the literal `_`
and the pattern tail; on failure extend the project-name group by the current
word character. -/
def findUnd (acc : List Char) : List Char → Option (List Char × Nat × String)
  | [] => none
  | c :: rs =>
    if c = '_' then
      match tailMatch rs with
      | some (n, e) => some (acc, n, e)
      | none => if isWordChar c then findUnd (acc ++ [c]) rs else none
    else if isWordChar c then findUnd (acc ++ [c]) rs else none

/-- Full match of `^(\w+?)_([0-9]+).(inf|csv|psout|zip|gz|bz2|xz)$` against a
(lower-cased) file name, returning the project group, the rank and the
extension. -/
def nameMatch (cs : List Char) : Option (List Char × Nat × String) :=
  match cs with
  | [] => none
  | c :: rs => if isWordChar c then findUnd [c] rs else none

/-- Python `str.startswith` on the modelled content lines. -/
def startsWithStr (pat s : String) : Bool := pat.data.isPrefixOf s.data

/-- idFile's classification of one result file (`src/plotter/plotter.py`):
the directory split and path re-joining are the caller's concern, so the
embedding takes the bare file name; the first and second line of the file,
read only for the `.inf`/`.csv` content checks, are passed as parameters in
place of the `open(...)` call.  `none` models the all-`None` tuple. -/
def idFileName (fileName firstLine secondLine : String) :
    Option (ResultType × Nat × String) :=
  match nameMatch (fileName.data.map Char.toLower) with
  | none => none
  | some (proj, rank, ext) =>
    if ext = "psout" then some (.EMT_PSOUT, rank, String.mk proj)
    else if ext = "zip" ∨ ext = "gz" ∨ ext = "bz2" ∨ ext = "xz" then
      some (.EMT_ZIP, rank, String.mk proj)
    else if ext = "inf" ∧ startsWithStr "PGB(1)" firstLine then
      some (.EMT_INF, rank, String.mk proj)
    else if ext = "csv" ∧ startsWithStr "time;" firstLine then
      some (.EMT_CSV, rank, String.mk proj)
    else if ext = "csv" ∧ startsWithStr "\"b:tnow in s\"" secondLine then
      some (.RMS, rank, String.mk proj)
    else none

/-- Helper: a time interval whose mask keeps no sample of the time column
selects an empty window from any signal zipped against that column. -/
theorem winF_empty {α : Type} (t : List ℚ) (y : List α) (iv : List ℚ)
    (h : t.filter (ivKeep iv) = []) : winF t y iv = [] := by
  induction t generalizing y with
  | nil => simp [winF]
  | cons a t ih =>
    rw [List.filter_cons] at h
    by_cases hk : ivKeep iv a
    · simp [hk] at h
    · cases y with
      | nil => simp [winF]
      | cons b y =>
        simp only [hk, if_neg, Bool.false_eq_true, if_false] at h
        simpa [winF, List.filter_cons, hk] using ih y h

/-- C3: every cursor metric function, on a time interval whose mask selects no
sample of the signal table, returns its NaN sentinel and never raises. -/
theorem cursor_metrics_empty_selection (df : CursorDf) (iv : List ℚ)
    (db tol Uref defaultQUdroop Un : ℚ) (quDroop0 : Option ℚ) (areaDK1 : Bool)
    (h : (df.headD []).filter (ivKeep iv) = []) :
    cursorStart df iv = .nan ∧ cursorEnd df iv = .nan ∧ cursorDelta df iv = .nan ∧
    cursorMin df iv = .nan ∧ cursorMax df iv = .nan ∧ cursorMean df iv = .nan ∧
    cursorGradMin df iv = .nan ∧ cursorGradMean df iv = .nan ∧
    cursorGradMax df iv = .nan ∧ cursorResponseDelay df iv = .nan ∧
    cursorRiseFallTime df iv = .nan ∧ cursorSettlingTime df iv tol = .nan ∧
    cursorPeakOvershoot df iv = .nan ∧ cursorFSMDroop df iv db = .nan ∧
    cursoLFSMDroop df iv areaDK1 = .nan ∧ cursorQUDroop df iv Uref = .nan ∧
    cursorQUSSTol df iv defaultQUdroop quDroop0 Uref = .nan ∧
    cursorDeltaFFC df iv areaDK1 Un = .nan := by
  rcases df with _ | ⟨t, _ | ⟨y, _ | ⟨z, rest⟩⟩⟩
  · exact ⟨rfl, rfl, rfl, rfl, rfl, rfl, rfl, rfl, rfl, rfl, rfl, rfl, rfl, rfl,
      rfl, rfl, rfl, rfl⟩
  · exact ⟨rfl, rfl, rfl, rfl, rfl, rfl, rfl, rfl, rfl, rfl, rfl, rfl, rfl, rfl,
      rfl, rfl, rfl, rfl⟩
  · have ht : t.filter (ivKeep iv) = [] := h
    have hw2 : winF t y iv = [] := winF_empty t y iv ht
    refine ⟨?_, ?_, ?_, ?_, ?_, ?_, ?_, ?_, ?_, ?_, ?_, ?_, ?_, ?_, ?_, ?_, ?_, ?_⟩ <;>
      simp [cursorStart, cursorEnd, cursorDelta, cursorMin, cursorMax, cursorMean,
        cursorGradMin, cursorGradMean, cursorGradMax, cursorResponseDelay,
        cursorRiseFallTime, cursorSettlingTime, cursorPeakOvershoot, cursorFSMDroop,
        cursoLFSMDroop, cursorQUDroop, cursorQUSSTol, cursorDeltaFFC, hw2]
  · have ht : t.filter (ivKeep iv) = [] := h
    have hw2 : winF t y iv = [] := winF_empty t y iv ht
    have hw3 : winF t (y.zip z) iv = [] := winF_empty t (y.zip z) iv ht
    refine ⟨?_, ?_, ?_, ?_, ?_, ?_, ?_, ?_, ?_, ?_, ?_, ?_, ?_, ?_, ?_, ?_, ?_, ?_⟩ <;>
      simp [cursorStart, cursorEnd, cursorDelta, cursorMin, cursorMax, cursorMean,
        cursorGradMin, cursorGradMean, cursorGradMax, cursorResponseDelay,
        cursorRiseFallTime, cursorSettlingTime, cursorPeakOvershoot, cursorFSMDroop,
        cursoLFSMDroop, cursorQUDroop, cursorQUSSTol, cursorDeltaFFC, hw2, hw3]

/-- C3 witness: a concrete two-column table and an interval selecting no
sample, every metric evaluating to the NaN sentinel. -/
theorem cursor_metrics_empty_selection_inst :
    (([[0, 1], [5, 6]] : CursorDf).headD []).filter (ivKeep [10]) = [] ∧
    (cursorStart [[0, 1], [5, 6]] [10] = .nan ∧
     cursorEnd [[0, 1], [5, 6]] [10] = .nan ∧
     cursorDelta [[0, 1], [5, 6]] [10] = .nan ∧
     cursorMin [[0, 1], [5, 6]] [10] = .nan ∧
     cursorMax [[0, 1], [5, 6]] [10] = .nan ∧
     cursorMean [[0, 1], [5, 6]] [10] = .nan ∧
     cursorGradMin [[0, 1], [5, 6]] [10] = .nan ∧
     cursorGradMean [[0, 1], [5, 6]] [10] = .nan ∧
     cursorGradMax [[0, 1], [5, 6]] [10] = .nan ∧
     cursorResponseDelay [[0, 1], [5, 6]] [10] = .nan ∧
     cursorRiseFallTime [[0, 1], [5, 6]] [10] = .nan ∧
     cursorSettlingTime [[0, 1], [5, 6]] [10] 2 = .nan ∧
     cursorPeakOvershoot [[0, 1], [5, 6]] [10] = .nan ∧
     cursorFSMDroop [[0, 1], [5, 6]] [10] 0 = .nan ∧
     cursoLFSMDroop [[0, 1], [5, 6]] [10] true = .nan ∧
     cursorQUDroop [[0, 1], [5, 6]] [10] 1 = .nan ∧
     cursorQUSSTol [[0, 1], [5, 6]] [10] 5 none 1 = .nan ∧
     cursorDeltaFFC [[0, 1], [5, 6]] [10] true 400 = .nan) :=
  ⟨by decide,
   cursor_metrics_empty_selection [[0, 1], [5, 6]] [10] 0 2 1 5 400 none true (by decide)⟩

/-- C2: on the step signal y = [0,0,0,1,1,1,1,1,1,1] sampled at 1 s over
[0, 9], the 10%–90% band of the unit step contains no sample, so
cursorRiseFallTime reaches the numpy reduction over an empty selection and
raises instead of returning a rise time. -/
theorem rise_fall_time_step_signal_raises :
    cursorRiseFallTime [[0, 1, 2, 3, 4, 5, 6, 7, 8, 9],
      [0, 0, 0, 1, 1, 1, 1, 1, 1, 1]] [0, 9] = .exn := by
  norm_num [cursorRiseFallTime, winF, ivKeep, listMax, listMin]

/-- C5 counterexample: the window t = [0,1,2], y = [0,5,0] over [0,2] has
total step 0, yet cursorResponseDelay returns the defined value 2 (the full
window span), not the NaN sentinel the claim requires. -/
theorem response_delay_zero_step_counterexample :
    cursorResponseDelay [[0, 1, 2], [0, 5, 0]] [0, 2] = .val 2 ∧
    cursorResponseDelay [[0, 1, 2], [0, 5, 0]] [0, 2] ≠ .nan := by
  refine ⟨?_, ?_⟩ <;>
    norm_num [cursorResponseDelay, winF, ivKeep, listMax, listMin]
  exact fun h => CRes.noConfusion h

/-- C5 amended: on a non-empty window whose first and last y values are equal
(total step 0), cursorResponseDelay returns a defined value — the zero step
falls into the falling branch, whose sub-selection keeps at least the first
sample — rather than the undefined NaN sentinel. -/
theorem response_delay_zero_step_defined (t y : List ℚ) (rest : List (List ℚ))
    (iv : List ℚ) (p : ℚ × ℚ) (ps : List (ℚ × ℚ))
    (hw : winF t y iv = p :: ps) (h0 : ((p :: ps).getLastD (0, 0)).2 = p.2) :
    ∃ q, cursorResponseDelay (t :: y :: rest) iv = .val q := by
  simp only [cursorResponseDelay, hw, h0]
  norm_num [List.filter_cons]

/-- C5 witness: the amended statement instantiated on the concrete zero-step
window t = [0,1,2], y = [0,5,0]. -/
theorem response_delay_zero_step_defined_inst :
    winF [0, 1, 2] [0, 5, 0] [0, 2] = [(0, 0), (1, 5), (2, 0)] ∧
    (∃ q, cursorResponseDelay [[0, 1, 2], [0, 5, 0]] [0, 2] = .val q) :=
  ⟨by decide,
   response_delay_zero_step_defined [0, 1, 2] [0, 5, 0] [] [0, 2] (0, 0)
     [(1, 5), (2, 0)] (by decide) (by decide)⟩

/-- C8: on any signal table with at least two columns and any interval whose
window is non-empty, cursorDelta equals the y value of cursorEnd minus the y
value of cursorStart. -/
theorem cursor_delta_end_minus_start (t y : List ℚ) (rest : List (List ℚ))
    (iv : List ℚ) (p : ℚ × ℚ) (ps : List (ℚ × ℚ))
    (hw : winF t y iv = p :: ps) :
    ∃ t0 y0 t1 y1,
      cursorStart (t :: y :: rest) iv = .val (t0, y0) ∧
      cursorEnd (t :: y :: rest) iv = .val (t1, y1) ∧
      cursorDelta (t :: y :: rest) iv = .val (y1 - y0) := by
  refine ⟨p.1, p.2, ((p :: ps).getLastD (0, 0)).1, ((p :: ps).getLastD (0, 0)).2,
    ?_, ?_, ?_⟩ <;> simp [cursorStart, cursorEnd, cursorDelta, hw]

/-- C8 witness: the identity instantiated on a concrete three-sample window. -/
theorem cursor_delta_end_minus_start_inst :
    winF [0, 1, 2] [4, 5, 7] [0, 2] = [(0, 4), (1, 5), (2, 7)] ∧
    (∃ t0 y0 t1 y1,
      cursorStart [[0, 1, 2], [4, 5, 7]] [0, 2] = .val (t0, y0) ∧
      cursorEnd [[0, 1, 2], [4, 5, 7]] [0, 2] = .val (t1, y1) ∧
      cursorDelta [[0, 1, 2], [4, 5, 7]] [0, 2] = .val (y1 - y0)) :=
  ⟨by decide,
   cursor_delta_end_minus_start [0, 1, 2] [4, 5, 7] [] [0, 2] (0, 4)
     [(1, 5), (2, 7)] (by decide)⟩

/-- C1 counterexample: with area DK1 (non-DSO), Upos = 0.3 and pre-fault
current Iq0 = 1, the FFC law returns 2.0 pu (= 1.0 + Iq0), not the claimed
1.0 pu — the result does depend on Iq0. -/
theorem ffc_dk1_low_voltage_counterexample :
    guideFFC 0.3 1 1 false = some 2 ∧ guideFFC 0.3 1 1 false ≠ some 1 := by
  refine ⟨?_, ?_⟩ <;> norm_num [guideFFC]

/-- C1 amended: for area DK1 (non-DSO) and Upos ≤ 0.5, both FFC variants
return `1.0 + Iq0` — the injected increment above the pre-fault current is
1.0 pu for every Iq0, the absolute output is not. -/
theorem ffc_dk1_low_voltage_adds_iq0 (Upos Iq0 : ℚ) (h : Upos ≤ 1 / 2) :
    guideFFC Upos Iq0 1 false = some (1 + Iq0) ∧
    idealFFC Upos Iq0 1 false = some (1 + Iq0) := by
  have h1 : ¬ Upos ≥ (0.85 : ℚ) := by norm_num; linarith
  have h2 : ¬ Upos > (0.5 : ℚ) := by norm_num; linarith
  refine ⟨?_, ?_⟩ <;> simp [guideFFC, idealFFC, h1, h2] <;> norm_num

/-- C1 witness: the amended statement at Upos = 0.3, Iq0 = 0.7. -/
theorem ffc_dk1_low_voltage_adds_iq0_inst :
    (0.3 : ℚ) ≤ 1 / 2 ∧
    (guideFFC 0.3 0.7 1 false = some (1 + 0.7) ∧
     idealFFC 0.3 0.7 1 false = some (1 + 0.7)) :=
  ⟨by norm_num, ffc_dk1_low_voltage_adds_iq0 0.3 0.7 (by norm_num)⟩

/-- Helper: the source's final pair of clamp assignments keeps any value
within ±0.1·Pn (Pn = 1 pu) of the reference `p`. -/
theorem fsm_clamp_bound (p x : ℚ) :
    |(if (if x > p + 0.1 * 1 then p + 0.1 * 1 else x) < p - 0.1 * 1 then p - 0.1 * 1
      else (if x > p + 0.1 * 1 then p + 0.1 * 1 else x)) - p| ≤ 1 / 10 := by
  split_ifs <;> rw [abs_le] <;> constructor <;> linarith

/-- C6: the FSM droop law's output never moves more than 0.1·Pn (Pn = 1 pu)
away from the input reference, for any frequency, any valid area, any
positive droop and any non-negative deadband — the final ±10% clamp
guarantees it; both the guide and the ideal variant. -/
theorem fsm_output_within_tenth (Pref f : ℚ) (DK : ℤ) (s db : ℚ)
    (hDK : DK = 1 ∨ DK = 2) (hs : 0 < s) (hdb : 0 ≤ db) :
    |guideFSM Pref f DK s db - Pref| ≤ 1 / 10 ∧
    |idealFSM Pref f DK s db - Pref| ≤ 1 / 10 := by
  constructor
  · simp only [guideFSM, if_pos hDK]
    exact fsm_clamp_bound Pref _
  · simp only [idealFSM, if_pos hDK]
    exact fsm_clamp_bound Pref _

/-- C6 witness: the bound at Pref = 0.5 pu, f = 49.9 Hz, DK1, s = 5%,
db = 0.01 Hz (where the output is 0.536 pu, an adjustment of 0.036 pu). -/
theorem fsm_output_within_tenth_inst :
    ((1 : ℤ) = 1 ∨ (1 : ℤ) = 2) ∧ (0 : ℚ) < 5 ∧ (0 : ℚ) ≤ 0.01 ∧
    (|guideFSM 0.5 49.9 1 5 0.01 - 0.5| ≤ 1 / 10 ∧
     |idealFSM 0.5 49.9 1 5 0.01 - 0.5| ≤ 1 / 10) :=
  ⟨Or.inl rfl, by norm_num, by norm_num,
   fsm_output_within_tenth 0.5 49.9 1 5 0.01 (Or.inl rfl) (by norm_num) (by norm_num)⟩

/-- C7: the ramp limiter holds `Pref` until `Tstep`; after `Tstep` it is the
linear ramp of slope `min(0.2, 60/Pn)/60` pu/s toward `Pstep`, clamped at
`Pstep`; and whenever the linear ramp has reached `Pstep` the output is
exactly `Pstep` (no overshoot, idempotent thereafter). -/
theorem guidePramp_spec (Pref Pn Tstep Pstep t : ℚ) :
    (t ≤ Tstep → guidePramp Pref Pn Tstep Pstep t = Pref) ∧
    (Tstep < t → guidePramp Pref Pn Tstep Pstep t =
      (if Pref < Pstep then
        min (min (0.2 : ℚ) (60 / Pn) / 60 * (t - Tstep) + Pref) Pstep
       else
        max (-(min (0.2 : ℚ) (60 / Pn)) / 60 * (t - Tstep) + Pref) Pstep)) ∧
    (Pref < Pstep → Pstep ≤ min (0.2 : ℚ) (60 / Pn) / 60 * (t - Tstep) + Pref →
      Tstep < t → guidePramp Pref Pn Tstep Pstep t = Pstep) ∧
    (Pstep ≤ Pref → -(min (0.2 : ℚ) (60 / Pn)) / 60 * (t - Tstep) + Pref ≤ Pstep →
      Tstep < t → guidePramp Pref Pn Tstep Pstep t = Pstep) := by
  refine ⟨?_, ?_, ?_, ?_⟩
  · intro ht
    simp only [guidePramp]
    split_ifs <;> linarith
  · intro ht
    simp only [guidePramp, min_def, max_def]
    split_ifs <;> linarith
  · intro hlt hreach ht
    simp only [guidePramp, min_def]
    rw [min_def] at hreach
    split_ifs at hreach ⊢ <;> linarith
  · intro hge hreach ht
    simp only [guidePramp, min_def]
    rw [min_def] at hreach
    split_ifs at hreach ⊢ <;> linarith

/-- C7 witness: with Pn = 300 the slope is 1/300 pu/s; the output holds 0
before the step at t = 1 and sits exactly at the target 1 at t = 400, where
the linear ramp has passed the target. -/
theorem guidePramp_spec_inst :
    ((0 : ℚ) ≤ 1 ∧ guidePramp 0 300 1 1 0 = 0) ∧
    ((0 : ℚ) < 1 ∧ (1 : ℚ) ≤ min (0.2 : ℚ) (60 / 300) / 60 * (400 - 1) + 0 ∧
      (1 : ℚ) < 400 ∧ guidePramp 0 300 1 1 400 = 1) :=
  ⟨⟨by norm_num, (guidePramp_spec 0 300 1 1 0).1 (by norm_num)⟩,
   ⟨by norm_num, by norm_num, by norm_num,
    (guidePramp_spec 0 300 1 1 400).2.2.1 (by norm_num) (by norm_num) (by norm_num)⟩⟩

/-- C4 counterexample: for the EMT legacy-text format and the raw signal name
`A\B`, the resolver's display name is built from the last path segment `B`,
not from the original raw name as the claim requires for every format. -/
theorem display_name_claim_counterexample :
    (getColNames "A\\B" ResultType.EMT_INF "G").2 = "G:B" ∧
    claimDisplayName "A\\B" "G" = "G:A\\B" ∧
    (getColNames "A\\B" ResultType.EMT_INF "G").2 ≠ claimDisplayName "A\\B" "G" :=
  ⟨by decide, by decide, by decide⟩

/-- C4 amended: for every raw signal name, format kind and shorthand, the
display name equals the shorthand, a colon and the first space-delimited
token of the format-RESOLVED signal name (RMS: leading `#` markers stripped;
EMT text/compressed: last backslash segment; EMT binary: unchanged), with all
`$` characters removed from the whole string. -/
theorem display_name_uses_resolved_name (raw sh : String) (typ : ResultType) :
    (getColNames raw typ sh).2 = dispNameOf (resolvedForDisplay typ raw) sh := by
  cases typ <;> rfl

/-- C9: a file named `proj_07.psout` classifies as EMT binary with rank 7 and
project name `proj` (no file content is read on the `.psout` path; the content
lines passed here are irrelevant empties). -/
theorem psout_classification :
    idFileName "proj_07.psout" "" "" = some (.EMT_PSOUT, 7, "proj") := by decide

/-- Helper: starting from complementary hysteresis flags, one update yields
complementary flags again — the two regimes stay mutually exclusive. -/
theorem updFlags_pair (lower : Bool) (fk : ℚ) :
    ∃ b, updFlags lower (!lower) fk = (b, !b) := by
  unfold updFlags
  split_ifs
  · exact ⟨false, rfl⟩
  · exact ⟨true, rfl⟩
  · exact ⟨lower, rfl⟩

/-- Helper: with complementary regime flags the per-sample loop of
guideLFSMRamp never reaches its trapped-exit branch. -/
theorem lfsmRampGo_ok (m Ts : ℚ) (DK : ℤ) (FSM : Bool) (s_fsm db : ℚ)
    (trip : List (ℚ × ℚ × ℚ)) :
    ∀ (lower upper : Bool) (pref prev : ℚ), upper = !lower →
      ∃ out, lfsmRampGo m Ts DK FSM s_fsm db lower upper pref prev trip = .ok out := by
  induction trip with
  | nil => exact fun lower upper pref prev _ => ⟨[], rfl⟩
  | cons hd tl ih =>
    rintro lower upper pref prev rfl
    obtain ⟨p0k, fk, ftdk⟩ := hd
    obtain ⟨b, hb⟩ := updFlags_pair lower fk
    cases b
    · obtain ⟨out, hout⟩ :=
        ih false true pref (guideLFSM pref ftdk DK FSM s_fsm db) rfl
      refine ⟨guideLFSM pref ftdk DK FSM s_fsm db :: out, ?_⟩
      simp only [lfsmRampGo, hb, Bool.not_false, if_false, if_true]
      rw [hout]
      rfl
    · obtain ⟨out, hout⟩ :=
        ih true false (rampStep m Ts p0k prev) (rampStep m Ts p0k prev) rfl
      refine ⟨rampStep m Ts p0k prev :: out, ?_⟩
      simp only [lfsmRampGo, hb, Bool.not_true, if_true]
      rw [hout]
      rfl

/-- C10: for every input, guideLFSMRamp terminates normally: after each
per-sample hysteresis update exactly one of the two regime flags is set (they
start as LOWER and every update writes a complementary pair or keeps the
previous complementary pair), so the source's "trapped in between the
hysteresis band" exit branch is unreachable. -/
theorem guideLFSMRamp_never_trapped (P0 : List ℚ) (Pn Ts : ℚ)
    (f fTdLpf P : List ℚ) (DK : ℤ) (FSM : Bool) (s_fsm db : ℚ) :
    ∃ out, guideLFSMRamp P0 Pn Ts f fTdLpf P DK FSM s_fsm db = .ok out := by
  cases P with
  | nil => exact ⟨[], rfl⟩
  | cons p0 ptail =>
    obtain ⟨out, hout⟩ := lfsmRampGo_ok (min (0.2 : ℚ) (60 / Pn) / 60) Ts DK FSM
      s_fsm db (((P0.drop 1).zip ((f.drop 1).zip fTdLpf)).take ptail.length)
      true false (P0.headD 0) p0 rfl
    refine ⟨p0 :: out, ?_⟩
    simp only [guideLFSMRamp]
    rw [hout]
    rfl
